import Mathlib

/-!
Shallow embedding of the retail-analytics-copilot orchestration core
(`src/agent/graph_hybrid.py`, `src/agent/dspy_signatures.py`,
`src/agent/tools/sqlite_tool.py`, `src/agent/rag/retrieval.py`) and proofs
about the claims on its specification.

Conventions of the embedding:
* Python strings are modelled as `String` / `List Char` (ASCII-oriented:
  `\d`, `.lower()` and whitespace tests are modelled on ASCII characters).
* Python floats are modelled as exact rationals `ℚ`; float representation
  noise is out of scope of the claims, which are about formulas and bounds.
* External collaborators (the LLM modules, the sqlite engine, the tf-idf
  scorer) are parameters of the functions that call them; a call that can
  raise is modelled with `Option`/`Except` or a sum type.
-/

/-- Characters stripped by Python `str.strip()` (whitespace). -/
def pyIsSpace (c : Char) : Bool :=
  c = ' ' || c = '\t' || c = '\n' || c = '\r' || c = Char.ofNat 11 || c = Char.ofNat 12

/-- Python `str.strip()` on a character list. -/
def pyStrip (cs : List Char) : List Char :=
  ((cs.dropWhile pyIsSpace).reverse.dropWhile pyIsSpace).reverse

/-- Python `str.strip()` on a `String`. -/
def pyStripS (s : String) : String :=
  String.mk (pyStrip s.data)

/-- Python `str.lower()` (ASCII model). -/
def toLowerS (s : String) : String :=
  String.mk (s.data.map Char.toLower)

/-- `startsWithL pat cs` is true when `pat` is an initial segment of `cs`. -/
def startsWithL : List Char → List Char → Bool
  | [], _ => true
  | _ :: _, [] => false
  | p :: ps, c :: cs => p = c && startsWithL ps cs

/-- Python `pat in hay` (substring containment) on character lists. -/
def containsL (hay pat : List Char) : Bool :=
  startsWithL pat hay ||
    match hay with
    | [] => false
    | _ :: t => containsL t pat

/-- Python `pat in hay` on `String`s. -/
def strHasSubstr (hay pat : String) : Bool :=
  containsL hay.data pat.data

/-- The backtick character (used by the markdown code fences the agent strips). -/
def backtickChar : Char := Char.ofNat 96

/-- `{` (written via its code so that braces never occur literally). -/
def lbraceChar : Char := Char.ofNat 123

/-- `}` -/
def rbraceChar : Char := Char.ofNat 125

/-- One scanning pass of Python `re.sub(pattern, '', s, flags=re.MULTILINE)`
for the fence-stripping patterns used by the agent.  `markers` are the
line-start alternatives (`^marker`, each ending in a newline), tried in the
order of the regex alternation; the final alternative is always ```` ``` ````
at end of line (`` ```$ ``).  The scan keeps track of whether the current
position is a line start, removes matches and copies everything else. -/
def fenceAux (markers : List (List Char)) : Nat → Bool → List Char → List Char
  | 0, _, cs => cs
  | fuel + 1, atStart, cs =>
    match (if atStart then markers.find? (fun m => startsWithL m cs) else none) with
    | some m => fenceAux markers fuel true (cs.drop m.length)
    | none =>
      if startsWithL [backtickChar, backtickChar, backtickChar] cs ∧
          (cs.drop 3 = [] ∨ (cs.drop 3).head? = some '\n') then
        fenceAux markers fuel false (cs.drop 3)
      else
        match cs with
        | [] => []
        | c :: rest => c :: fenceAux markers fuel (c = '\n') rest

/-- `re.sub(r'^M1\n|^M2\n|...|```$', '', s, flags=re.MULTILINE)` for the two
fence-stripping call sites of the agent. -/
def stripFences (markers : List String) (s : String) : String :=
  String.mk (fenceAux (markers.map String.data) s.data.length true s.data)

/-- Line-start markers of the answer-parser regex `^```(json|sql)?\n|```$`
(the regex alternation tries `json`, then `sql`, then the empty option). -/
def answerFenceMarkers : List String :=
  [String.mk ([backtickChar, backtickChar, backtickChar] ++ ("json\n").data),
   String.mk ([backtickChar, backtickChar, backtickChar] ++ ("sql\n").data),
   String.mk ([backtickChar, backtickChar, backtickChar] ++ ['\n'])]

/-- Line-start marker of the nl2sql-node regex `^```sql\n|```$`. -/
def sqlFenceMarkers : List String :=
  [String.mk ([backtickChar, backtickChar, backtickChar] ++ ("sql\n").data)]

theorem fenceAux_sublist (markers : List (List Char)) :
    ∀ (fuel : Nat) (b : Bool) (cs : List Char),
      (fenceAux markers fuel b cs).Sublist cs := by
  intro fuel
  induction fuel with
  | zero => intro b cs; simp [fenceAux]
  | succ n ih =>
    intro b cs
    cases cs with
    | nil =>
      rw [fenceAux]
      split
      · exact (ih true _).trans (List.drop_sublist _ _)
      · split
        · exact (ih false _).trans (List.drop_sublist _ _)
        · exact List.Sublist.refl _
    | cons c rest =>
      rw [fenceAux]
      split
      · exact (ih true _).trans (List.drop_sublist _ _)
      · split
        · exact (ih false _).trans (List.drop_sublist _ _)
        · exact List.Sublist.cons₂ _ (ih _ _)

theorem pyStrip_subset (cs : List Char) : ∀ c ∈ pyStrip cs, c ∈ cs := by
  intro c hc
  unfold pyStrip at hc
  rw [List.mem_reverse] at hc
  have h1 := (List.dropWhile_sublist (l := (cs.dropWhile pyIsSpace).reverse) pyIsSpace).subset hc
  rw [List.mem_reverse] at h1
  exact (List.dropWhile_sublist (l := cs) pyIsSpace).subset h1

/-!
Python values and `json.loads`

`PyValue` models the dynamically-typed values the agent passes around
(final answers, SQL row cells).  `jsonLoads` models Python's `json.loads`
(strict JSON; the non-standard `NaN`/`Infinity` literals Python also
accepts have no rational representation and do not occur in the claims).
-/

inductive PyValue where
  | int (n : ℤ)
  | float (q : ℚ)
  | str (s : String)
  | bool (b : Bool)
  | list (xs : List PyValue)
  | dict (fields : List (String × PyValue))
  | none

/-- JSON whitespace (the only characters `json.loads` skips between tokens). -/
def jsonWs (c : Char) : Bool := c = ' ' || c = '\t' || c = '\n' || c = '\r'

/-- Decimal value of a digit run. -/
def digitsToNat (ds : List Char) : Nat := ds.foldl (fun a c => a * 10 + (c.toNat - 48)) 0

def hexVal (c : Char) : Option Nat :=
  if c.isDigit then some (c.toNat - 48)
  else if 'a' ≤ c ∧ c ≤ 'f' then some (c.toNat - 87)
  else if 'A' ≤ c ∧ c ≤ 'F' then some (c.toNat - 55)
  else Option.none

/-- JSON number grammar: `-? ('0' | [1-9][0-9]*) ('.' [0-9]+)? ([eE][+-]?[0-9]+)?`.
A number without fraction and exponent parses as a Python `int`, otherwise
as a float (modelled exactly as a rational). -/
def parseJsonNumber (cs : List Char) : Option (PyValue × List Char) :=
  let sign : ℤ × List Char := match cs with | '-' :: t => (-1, t) | _ => (1, cs)
  let cs1 := sign.2
  let intDigits := cs1.takeWhile Char.isDigit
  let rest1 := cs1.dropWhile Char.isDigit
  if intDigits = [] then Option.none
  else if intDigits.head? = some '0' ∧ intDigits.length ≠ 1 then Option.none
  else
    let fracPart : Option (List Char × List Char) :=
      match rest1 with
      | '.' :: t =>
        let fd := t.takeWhile Char.isDigit
        if fd = [] then Option.none else some (fd, t.dropWhile Char.isDigit)
      | _ => some ([], rest1)
    match fracPart with
    | Option.none => Option.none
    | some (fracDigits, rest2) =>
      let expPart : Option (Option ℤ × List Char) :=
        match rest2 with
        | e :: t =>
          if e = 'e' ∨ e = 'E' then
            let se : (ℤ × List Char) := match t with
              | '+' :: t2 => (1, t2)
              | '-' :: t2 => (-1, t2)
              | _ => (1, t)
            let ed := se.2.takeWhile Char.isDigit
            if ed = [] then Option.none
            else some (some (se.1 * (digitsToNat ed : ℤ)), se.2.dropWhile Char.isDigit)
          else some (Option.none, rest2)
        | [] => some (Option.none, rest2)
      match expPart with
      | Option.none => Option.none
      | some (expVal, rest3) =>
        if fracDigits = [] ∧ expVal = Option.none then
          some (.int (sign.1 * (digitsToNat intDigits : ℤ)), rest3)
        else
          let mant : ℚ :=
            (sign.1 : ℚ) * ((digitsToNat (intDigits ++ fracDigits) : ℚ) / ((10 ^ fracDigits.length : ℕ) : ℚ))
          let e := expVal.getD 0
          let scaled : ℚ :=
            if 0 ≤ e then mant * ((10 ^ e.toNat : ℕ) : ℚ) else mant / ((10 ^ (-e).toNat : ℕ) : ℚ)
          some (.float scaled, rest3)

/-- JSON string body (after the opening quote): ordinary characters, the
escape sequences, and a closing quote.  Unescaped control characters are
rejected (`json.loads` is strict by default). -/
def parseJString : Nat → List Char → Option (List Char × List Char)
  | 0, _ => Option.none
  | fuel + 1, cs =>
    match cs with
    | [] => Option.none
    | '"' :: t => some ([], t)
    | '\\' :: e :: t =>
      let esc : Option (Char × List Char) :=
        if e = '"' then some ('"', t)
        else if e = '\\' then some ('\\', t)
        else if e = '/' then some ('/', t)
        else if e = 'b' then some (Char.ofNat 8, t)
        else if e = 'f' then some (Char.ofNat 12, t)
        else if e = 'n' then some ('\n', t)
        else if e = 'r' then some ('\r', t)
        else if e = 't' then some ('\t', t)
        else if e = 'u' then
          match t with
          | h1 :: h2 :: h3 :: h4 :: t2 =>
            match hexVal h1, hexVal h2, hexVal h3, hexVal h4 with
            | some a, some b, some c, some d => some (Char.ofNat (((a * 16 + b) * 16 + c) * 16 + d), t2)
            | _, _, _, _ => Option.none
          | _ => Option.none
        else Option.none
      match esc with
      | some (c, t2) => (parseJString fuel t2).map (fun r => (c :: r.1, r.2))
      | Option.none => Option.none
    | c :: t =>
      if c.toNat < 32 then Option.none
      else (parseJString fuel t).map (fun r => (c :: r.1, r.2))

mutual

def parseJVal : Nat → List Char → Option (PyValue × List Char)
  | 0, _ => Option.none
  | fuel + 1, cs0 =>
    let cs := cs0.dropWhile jsonWs
    match cs with
    | [] => Option.none
    | c :: t =>
      if c = lbraceChar then
        let t2 := t.dropWhile jsonWs
        match t2 with
        | d :: t3 => if d = rbraceChar then some (.dict [], t3) else
            (parseJMembers fuel t2).map (fun r => (.dict r.1, r.2))
        | [] => Option.none
      else if c = '[' then
        let t2 := t.dropWhile jsonWs
        match t2 with
        | d :: t3 => if d = ']' then some (.list [], t3) else
            (parseJItems fuel t2).map (fun r => (.list r.1, r.2))
        | [] => Option.none
      else if c = '"' then
        (parseJString (t.length + 1) t).map (fun r => (.str (String.mk r.1), r.2))
      else if startsWithL ("true").data cs then some (.bool true, cs.drop 4)
      else if startsWithL ("false").data cs then some (.bool false, cs.drop 5)
      else if startsWithL ("null").data cs then some (.none, cs.drop 4)
      else parseJsonNumber cs

def parseJMembers : Nat → List Char → Option (List (String × PyValue) × List Char)
  | 0, _ => Option.none
  | fuel + 1, cs0 =>
    let cs := cs0.dropWhile jsonWs
    match cs with
    | '"' :: t =>
      match parseJString (t.length + 1) t with
      | some (key, r1) =>
        let r2 := r1.dropWhile jsonWs
        match r2 with
        | ':' :: r3 =>
          match parseJVal fuel r3 with
          | some (v, r4) =>
            let r5 := r4.dropWhile jsonWs
            match r5 with
            | ',' :: r6 => (parseJMembers fuel r6).map (fun r => ((String.mk key, v) :: r.1, r.2))
            | d :: r6 => if d = rbraceChar then some ([(String.mk key, v)], r6) else Option.none
            | [] => Option.none
          | Option.none => Option.none
        | _ => Option.none
      | Option.none => Option.none
    | _ => Option.none

def parseJItems : Nat → List Char → Option (List PyValue × List Char)
  | 0, _ => Option.none
  | fuel + 1, cs =>
    match parseJVal fuel cs with
    | some (v, r1) =>
      let r2 := r1.dropWhile jsonWs
      match r2 with
      | ',' :: r3 => (parseJItems fuel r3).map (fun r => (v :: r.1, r.2))
      | ']' :: r3 => some ([v], r3)
      | _ => Option.none
    | Option.none => Option.none

end

/-- Model of Python `json.loads`: parse one value, allow surrounding
whitespace, reject trailing input. -/
def jsonLoads (s : String) : Option PyValue :=
  match parseJVal (s.data.length + 1) s.data with
  | some (v, rest) => if rest.dropWhile jsonWs = [] then some v else Option.none
  | Option.none => Option.none

/-!
`execute_sql` result shape (src/agent/tools/sqlite_tool.py) and the
answer parser `HybridAgent._parse_answer` (src/agent/graph_hybrid.py).
-/

/-- A result row: `sqlite3.Row` converted by `dict(row)`. -/
def SqlRow : Type := List (String × PyValue)

/-- The dictionary returned by `execute_sql` (keys `success`, `rows`,
`columns`, `error`, `row_count`). -/
structure ExecResult where
  success : Bool
  rows : List (List (String × PyValue))
  columns : List String
  error : Option String
  row_count : Nat

/-- First maximal run of characters satisfying `p`: `re.search` for the
one-character-class-plus patterns `\d+` and `[\d.]+`. -/
def firstRunBy (p : Char → Bool) : List Char → Option (List Char)
  | [] => Option.none
  | c :: t => if p c then some (c :: t.takeWhile p) else firstRunBy p t

/-- Python `float()` applied to a token drawn from the character class
`[\d.]`: it succeeds exactly when the token has at least one digit and at
most one dot (`float(".")` and `float("1.2.3")` raise `ValueError`). -/
def pyFloatOfToken (tok : List Char) : Option ℚ :=
  if tok.count '.' ≤ 1 ∧ tok.any Char.isDigit then
    let intPart := tok.takeWhile Char.isDigit
    let rest := tok.dropWhile Char.isDigit
    let fracPart := match rest with | '.' :: t => t | _ => []
    some ((digitsToNat (intPart ++ fracPart) : ℚ) / ((10 ^ fracPart.length : ℕ) : ℚ))
  else Option.none

/-- Floor of a rational, written out on the numerator/denominator. -/
def ratFloor (q : ℚ) : ℤ := Int.fdiv q.num (q.den : ℤ)

/-- Python's `round` rounds half to even. -/
def roundHalfEven (q : ℚ) : ℤ :=
  let f := ratFloor q
  let r := q - (f : ℚ)
  if r < 1/2 then f
  else if 1/2 < r then f + 1
  else if f % 2 = 0 then f else f + 1

/-- Python `round(x, 2)` (on the exact rational value; binary-float
representation noise is abstracted away). -/
def round2 (q : ℚ) : ℚ := ((roundHalfEven (q * 100) : ℚ)) / 100

/-- Python `isinstance(v, (int, float))` — `bool` is a subclass of `int` —
together with `float(v)` on such a value. -/
def pyFloatOfNumeric : PyValue → Option ℚ
  | .int n => some ((n : ℚ))
  | .float q => some q
  | .bool b => some (if b then 1 else 0)
  | _ => Option.none

/-- The `except Exception` handler at the end of `_parse_answer`
(reached only from the one raising expression, `float(match.group())`). -/
def answerExcept (a : String) (hint : String) (sqlResults : Option ExecResult) : PyValue :=
  match sqlResults with
  | some r =>
    if r.rows.isEmpty = false then
      if startsWithL ("list").data hint.data then .list (r.rows.map (fun row => .dict row))
      else if startsWithL [lbraceChar] hint.data ∧ r.rows.isEmpty = false then .dict (r.rows.headD [])
      else .str a
    else .str a
  | Option.none => .str a

/-- `HybridAgent._parse_answer(answer_str, format_hint, sql_results)`. -/
def parseAnswer (answer : String) (hint : String) (sqlResults : Option ExecResult) : PyValue :=
  let a := stripFences answerFenceMarkers (pyStripS answer)
  if hint = "int" then
    match firstRunBy Char.isDigit a.data with
    | some ds => .int ((digitsToNat ds : ℤ))
    | Option.none => .int 0
  else if hint = "float" then
    match firstRunBy (fun c => c.isDigit || c = '.') a.data with
    | some tok =>
      match pyFloatOfToken tok with
      | some q => .float (round2 q)
      | Option.none => answerExcept a hint sqlResults
    | Option.none =>
      match sqlResults with
      | some r =>
        if r.rows.isEmpty = false then
          match ((r.rows.headD []).map Prod.snd).filterMap pyFloatOfNumeric |>.head? with
          | some q => .float (round2 q)
          | Option.none => .float 0
        else .float 0
      | Option.none => .float 0
  else if startsWithL [lbraceChar] hint.data then
    match jsonLoads a with
    | some v => v
    | Option.none =>
      match sqlResults with
      | some r =>
        match r.rows with
        | row :: _ => .dict row
        | [] => .dict []
      | Option.none => .dict []
  else if startsWithL ("list").data hint.data then
    match jsonLoads a with
    | some v => v
    | Option.none =>
      match sqlResults with
      | some r => if r.rows.isEmpty = false then .list (r.rows.map (fun row => .dict row)) else .list []
      | Option.none => .list []
  else .str a

/-!
Retrieved chunks and `HybridAgent._extract_constraints`.
-/

/-- A retrieved chunk as stored in the agent state: the loaded chunk fields
plus the retrieval score attached by `DocumentRetriever.search`. -/
structure Chunk where
  id : String
  content : String
  source : String
  score : ℚ
deriving DecidableEq

/-- Match `\d{4}-\d{2}-\d{2}` at the current position, returning the date
text and the rest of the input. -/
def takeDigits : Nat → List Char → Option (List Char × List Char)
  | 0, cs => some ([], cs)
  | _ + 1, [] => Option.none
  | n + 1, c :: t =>
    if c.isDigit then (takeDigits n t).map (fun r => (c :: r.1, r.2)) else Option.none

def matchDate (cs : List Char) : Option (List Char × List Char) :=
  match takeDigits 4 cs with
  | some (y, r1) =>
    match r1 with
    | '-' :: r2 =>
      match takeDigits 2 r2 with
      | some (mo, r3) =>
        match r3 with
        | '-' :: r4 => (takeDigits 2 r4).map (fun r => (y ++ ['-'] ++ mo ++ ['-'] ++ r.1, r.2))
        | _ => Option.none
      | Option.none => Option.none
    | _ => Option.none
  | Option.none => Option.none

/-- Match the date-range regex `(\d{4}-\d{2}-\d{2})\s+to\s+(\d{4}-\d{2}-\d{2})`
at the current position.  (`\s+` is maximal whitespace; since `t` and a digit
are not whitespace, no backtracking is possible.) -/
def matchDateRangeAt (cs : List Char) : Option (String × String) :=
  match matchDate cs with
  | some (d1, r1) =>
    if r1.takeWhile pyIsSpace = [] then Option.none
    else
      match r1.dropWhile pyIsSpace with
      | 't' :: 'o' :: r2 =>
        if r2.takeWhile pyIsSpace = [] then Option.none
        else
          match matchDate (r2.dropWhile pyIsSpace) with
          | some (d2, _) => some (String.mk d1, String.mk d2)
          | Option.none => Option.none
      | _ => Option.none
  | Option.none => Option.none

/-- Leftmost match of the date-range regex: `re.findall(...)[0]`. -/
def findDateRange : List Char → Option (String × String)
  | [] => Option.none
  | c :: t =>
    match matchDateRangeAt (c :: t) with
    | some r => some r
    | Option.none => findDateRange t

/-- The constraints mapping built by the planner.  Absence of a key is
`Option.none`; the code never deletes a key, only overwrites. -/
structure Constraints where
  date_range : Option (String × String) := Option.none
  category : Option String := Option.none
  kpi_type : Option String := Option.none
  kpi_formula : Option String := Option.none
  cost_approximation : Option ℚ := Option.none
deriving DecidableEq

/-- The fixed category vocabulary of `_extract_constraints`. -/
def categoriesList : List String :=
  ["Beverages", "Condiments", "Confections", "Dairy Products",
   "Grains/Cereals", "Meat/Poultry", "Produce", "Seafood"]

/-- The disjoint "asking about the category dimension" phrases. -/
def categoryPhrases : List String :=
  ["which category", "which product category", "what category",
   "top category", "highest category", "best category"]

/-- The AOV formula recorded verbatim as a constraint value. -/
def aovFormula : String :=
  "SUM(UnitPrice * Quantity * (1 - Discount)) / COUNT(DISTINCT OrderID)"

/-- One iteration of the `for chunk in chunks` loop of
`_extract_constraints` (date range, category, AOV KPI, margin KPI — in the
order of the source). -/
def constraintStep (question : String) (asking : Bool) (cs : Constraints) (content : String) :
    Constraints :=
  let cs1 :=
    match findDateRange content.data with
    | some dr => { cs with date_range := some dr }
    | Option.none => cs
  let cs2 :=
    if asking = false then
      match categoriesList.find? (fun cat => strHasSubstr content cat) with
      | some cat => { cs1 with category := some cat }
      | Option.none => cs1
    else cs1
  let cs3 :=
    if (strHasSubstr question ("AOV") || strHasSubstr question ("Average Order Value")) &&
        strHasSubstr content ("AOV") then
      { cs2 with kpi_type := some ("AOV"), kpi_formula := some aovFormula }
    else cs2
  if (strHasSubstr (toLowerS question) ("gross margin") ||
      strHasSubstr (toLowerS question) ("margin")) &&
      (strHasSubstr content ("Gross Margin") || strHasSubstr (toLowerS content) ("margin")) then
    { cs3 with kpi_type := some ("gross_margin"), cost_approximation := some (7/10) }
  else cs3

/-- `HybridAgent._extract_constraints(question, chunks)`. -/
def extractConstraints (question : String) (chunks : List Chunk) : Constraints :=
  let asking := categoryPhrases.any (fun p => strHasSubstr (toLowerS question) p)
  chunks.foldl (fun cs chunk => constraintStep question asking cs chunk.content) {}

/-!
`QuestionRouter.forward` (src/agent/dspy_signatures.py).

The LLM classifier (`dspy.ChainOfThought`) is an opaque collaborator,
modelled as `model : String → Option String` (`Option.none` = the call
raised).  `routerForward` returns the route together with a flag recording
whether the collaborator was invoked.
-/

def ragKeywords : List String := ["policy", "return window", "return days", "definition"]

def hybridKeywords : List String := ["during", "summer", "winter", "calendar", "marketing"]

def sqlOnlyKeywords : List String := ["top 3", "total revenue", "all-time", "how many"]

/-- The f-string prompt built for the fallback model classification. -/
def routerPrompt (question : String) : String :=
  "Classify this question:\n\"" ++ question ++
  "\"\n\nGuidelines:\n- If asking about POLICIES, RETURN WINDOWS, DEFINITIONS from documents → route=\x27rag\x27\n- If asking for NUMBERS, TOTALS, RANKINGS from database → route=\x27sql\x27  \n- If needs BOTH document info (dates/categories) AND database numbers → route=\x27hybrid\x27\n\nQuestion: " ++
  question

def routerForward (model : String → Option String) (question : String) : String × Bool :=
  let ql := toLowerS question
  if ragKeywords.any (fun w => strHasSubstr ql w) then ("rag", false)
  else if hybridKeywords.any (fun w => strHasSubstr ql w) then ("hybrid", false)
  else if sqlOnlyKeywords.any (fun w => strHasSubstr ql w) then ("sql", false)
  else
    match model (routerPrompt question) with
    | some raw =>
      let route := toLowerS (pyStripS raw)
      (if route = "rag" ∨ route = "sql" ∨ route = "hybrid" then route else ("hybrid"), true)
    | Option.none => ("hybrid", true)

/-!
`execute_sql`, `_get_error_hints` and `extract_tables_from_sql`
(src/agent/tools/sqlite_tool.py).

The sqlite engine itself is a collaborator: `engine : String → EngineOutcome`,
where `sqliteError` models an exception of class `sqlite3.Error` and
`otherError` any other exception.
-/

inductive SqlInput where
  | str (s : String)
  | notAString

inductive EngineOutcome where
  | ok (rows : List (List (String × PyValue)))
  | sqliteError (msg : String)
  | otherError (msg : String)

/-- ASCII model of the regex word class `\w`. -/
def isWordChar (c : Char) : Bool := c.isAlphanum || c = '_'

/-- Case-insensitive literal match at the head (pattern given uppercased). -/
def startsWithCI : List Char → List Char → Bool
  | [], _ => true
  | _ :: _, [] => false
  | p :: ps, c :: cs => p = c.toUpper && startsWithCI ps cs

/-- `re.search(pat + r"\s*(\S+)", msg, re.IGNORECASE)` for the literal
patterns `no such table:` / `no such column:`: leftmost position where the
literal matches and is followed (after optional whitespace) by a non-empty
non-whitespace token. -/
def findTokenAfterCI (pat : List Char) : List Char → Option String
  | [] => Option.none
  | c :: t =>
    (if startsWithCI pat (c :: t) then
      let rest := (c :: t).drop pat.length
      let tok := (rest.dropWhile pyIsSpace).takeWhile (fun ch => pyIsSpace ch = false)
      if tok = [] then Option.none else some (String.mk tok)
    else Option.none).orElse (fun _ => findTokenAfterCI pat t)

/-- `_get_error_hints(error_msg, query)`: the `"".join(hints)` string. -/
def getErrorHints (errorMsg query : String) : String :=
  let lower := toLowerS errorMsg
  if strHasSubstr lower ("no such table") then
    match findTokenAfterCI (("NO SUCH TABLE:").data) errorMsg.data with
    | some wrong =>
      let h1 := "\n  → Table \x27" ++ wrong ++ "\x27 does not exist"
      let extra :=
        if toLowerS wrong = "orderdetails" ∨ toLowerS wrong = "order_details" then
          "  → Use \"Order Details\" (with quotes and space)"
        else if toLowerS wrong = "categories" then
          "  → Use \x27Categories\x27 (capital C)"
        else if toLowerS wrong = "salestable" ∨ toLowerS wrong = "sales" then
          "  → No sales table exists. Use Orders + \"Order Details\""
        else ("")
      h1 ++ extra
    | Option.none => ""
  else if strHasSubstr lower ("no such column") then
    match findTokenAfterCI (("NO SUCH COLUMN:").data) errorMsg.data with
    | some wrong =>
      let h1 := "\n  → Column \x27" ++ wrong ++ "\x27 does not exist"
      let wl := toLowerS wrong
      let extra :=
        if strHasSubstr wl ("categoryname") then
          "  → CategoryName is in \x27Categories\x27 table, not \x27Products\x27" ++
          "  → Join: Products.CategoryID = Categories.CategoryID"
        else if strHasSubstr wl ("returnwindow") then
          "  → No return policy data in database" ++
          "  → This info is in DOCUMENTS (use RAG, not SQL)"
        else if strHasSubstr wl ("productname") && strHasSubstr (toLowerS query) ("order") then
          "  → ProductName is in \x27Products\x27 table" ++
          "  → Join: \"Order Details\".ProductID = Products.ProductID"
        else ("")
      h1 ++ extra
    | Option.none => ""
  else if strHasSubstr lower ("syntax error") then
    if strHasSubstr query ("BETWEDIR") || strHasSubstr query ("BETWELOG") then
      "\n  → Typo in BETWEEN clause" ++
      "  → Correct: WHERE DATE(col) BETWEEN \x27date1\x27 AND \x27date2\x27"
    else ("")
  else if strHasSubstr lower ("ambiguous") then
    "\n  → Column name exists in multiple tables" ++
    "  → Use table prefix: table_name.column_name"
  else ("")

def invalidResult (msg : String) : ExecResult :=
  { success := false, error := some msg, rows := [], columns := [], row_count := 0 }

/-- `execute_sql(query)` with the engine as an explicit collaborator. -/
def executeSql (engine : String → EngineOutcome) (query : SqlInput) : ExecResult :=
  match query with
  | .notAString => invalidResult ("Invalid query: empty or not a string")
  | .str s =>
    if s = "" then invalidResult ("Invalid query: empty or not a string")
    else
      let q := pyStripS s
      if q = "" then invalidResult ("Query is empty after cleaning")
      else
        match engine q with
        | .ok rows =>
          { success := true, rows := rows,
            columns := match rows with | [] => [] | r :: _ => r.map Prod.fst,
            error := Option.none, row_count := rows.length }
        | .sqliteError msg =>
          { success := false, error := some (msg ++ getErrorHints msg q),
            rows := [], columns := [], row_count := 0 }
        | .otherError msg =>
          { success := false, error := some ("Unexpected error: " ++ msg),
            rows := [], columns := [], row_count := 0 }

/-- The clause keywords of the table-extraction regex, in alternation order. -/
def tableClauseKeywords : List String := ["FROM", "JOIN", "INTO", "UPDATE", "TABLE"]

/-- The SQL keyword denylist of `_is_sql_keyword`. -/
def sqlDenylist : List String :=
  ["SELECT", "WHERE", "GROUP", "ORDER", "HAVING", "LIMIT",
   "OFFSET", "UNION", "INTERSECT", "EXCEPT", "CASE", "WHEN",
   "THEN", "ELSE", "END", "AS", "ON", "USING", "AND", "OR",
   "NOT", "IN", "EXISTS", "BETWEEN", "LIKE", "IS", "NULL",
   "DISTINCT", "ALL", "ASC", "DESC"]

def toUpperS (s : String) : String := String.mk (s.data.map Char.toUpper)

def isSqlKeyword (w : String) : Bool := sqlDenylist.contains (toUpperS w)

/-- The group of the table-extraction regex:
`"([^"]+)"|'([^']+)'|`‹backtick group›`|(\w+)`.
Returns the group text, the rest of the input after the group, and whether
the last consumed character is a word character (for the next `\b` test). -/
def parseTableGroup (cs : List Char) : Option (List Char × List Char × Bool) :=
  match cs with
  | '"' :: t =>
    let body := t.takeWhile (fun c => c ≠ '"')
    (match t.dropWhile (fun c => c ≠ '"') with
     | '"' :: r => if body = [] then Option.none else some (body, r, false)
     | _ => Option.none)
  | '\'' :: t =>
    let body := t.takeWhile (fun c => c ≠ '\'')
    (match t.dropWhile (fun c => c ≠ '\'') with
     | '\'' :: r => if body = [] then Option.none else some (body, r, false)
     | _ => Option.none)
  | c :: t =>
    if c = backtickChar then
      let body := t.takeWhile (fun ch => ch ≠ backtickChar)
      (match t.dropWhile (fun ch => ch ≠ backtickChar) with
       | b :: r => if b = backtickChar ∧ body ≠ [] then some (body, r, false) else Option.none
       | _ => Option.none)
    else
      let w := (c :: t).takeWhile isWordChar
      if w = [] then Option.none else some (w, (c :: t).drop w.length, true)
  | [] => Option.none

/-- Python `group.split()[0]` (first whitespace-separated token).  When the
group is all whitespace — a quoted table name such as `FROM "   "` —
`split()` returns `[]` and the `[0]` raises `IndexError`; the error is
modelled as `Except.error` and propagates out of table extraction exactly
as the uncaught exception does in the source. -/
def pySplitHead (cs : List Char) : Except String (List Char) :=
  let tok := (cs.dropWhile pyIsSpace).takeWhile (fun c => pyIsSpace c = false)
  if tok = [] then Except.error "IndexError: list index out of range" else Except.ok tok

/-- Python `token.strip(',;')`. -/
def stripCommaSemi (cs : List Char) : List Char :=
  let p : Char → Bool := fun c => c = ',' || c = ';'
  ((cs.dropWhile p).reverse.dropWhile p).reverse

/-- Attempt the whole regex `\b(?:FROM|JOIN|INTO|UPDATE|TABLE)\s+(group)` at
the current position (the `\b` has already been checked by the caller).
The outer `Option` is regex failure at this position; on a match, the
payload carries either the `IndexError` from `split()[0]` or the optional
table name (dropped when it is empty after `strip(',;')` or on the keyword
denylist), plus the rest of the input after the match and the
word-character status of the last matched character. -/
def attemptTableMatch (cs : List Char) :
    Option (Except String (Option String) × List Char × Bool) :=
  tableClauseKeywords.findSome? (fun kw =>
    if startsWithCI kw.data cs then
      let afterKw := cs.drop kw.data.length
      if afterKw.takeWhile pyIsSpace = [] then Option.none
      else
        match parseTableGroup (afterKw.dropWhile pyIsSpace) with
        | some (g, rest, lastWord) =>
          (match pySplitHead g with
           | Except.ok tk =>
             let tk2 := stripCommaSemi tk
             if tk2 = [] then some (Except.ok Option.none, rest, lastWord)
             else if isSqlKeyword (String.mk tk2) then some (Except.ok Option.none, rest, lastWord)
             else some (Except.ok (some (String.mk tk2)), rest, lastWord)
           | Except.error e => some (Except.error e, rest, lastWord))
        | Option.none => Option.none
    else Option.none)

/-- `pattern1.finditer(sql)`: left-to-right scan, matches are non-overlapping,
a match is only attempted at a word boundary (`prevWord = false`).  An
`IndexError` raised while processing a match aborts the whole loop, as in
the source. -/
def scanTables : Nat → Bool → List Char → Except String (List String)
  | 0, _, _ => Except.ok []
  | fuel + 1, prevWord, cs =>
    match cs with
    | [] => Except.ok []
    | c :: rest =>
      match (if prevWord then Option.none else attemptTableMatch cs) with
      | some (tk, restAfter, lastWord) =>
        (match tk with
         | Except.error e => Except.error e
         | Except.ok t =>
           (scanTables fuel lastWord restAfter).map (fun ts =>
             (match t with | some t2 => [t2] | Option.none => []) ++ ts))
      | Option.none => scanTables fuel (isWordChar c) rest

/-- Ascending insertion keeping a sorted list sorted (for `sorted(...)`). -/
def insertSorted (s : String) : List String → List String
  | [] => [s]
  | x :: xs => if s < x then s :: x :: xs else x :: insertSorted s xs

/-- `extract_tables_from_sql(sql)`: the deduplicated, sorted list of
extracted table names, or the uncaught `IndexError` (see `pySplitHead`). -/
def extractTables (sql : String) : Except String (List String) :=
  (scanTables sql.data.length false sql.data).map (fun raw => raw.dedup.foldr insertSorted [])

/-!
`DocumentRetriever` (src/agent/rag/retrieval.py).

The filesystem is a parameter: `Option.none` models a missing `docs/`
directory (where `os.listdir` raises `FileNotFoundError` in `__init__`);
`some files` is the directory listing with each file's text.  The tf-idf
cosine scores are an opaque parameter `scorer` (query → chunk index →
score); `TfidfVectorizer.fit_transform` raises on an empty chunk list.
Ties in `numpy.argsort` are modelled as stable (by ascending index).
-/

structure BaseChunk where
  id : String
  content : String
  source : String

structure RetrieverCtx where
  chunks : List BaseChunk
  scorer : String → Nat → ℚ

/-- `_load_and_chunk` for one directory entry: only `.md` files are read;
the text is split on `"\n## "` and non-blank sections become chunks with
ids `filename::chunkI` (`I` the index in the split, blanks included). -/
def chunksOfFile (filename content : String) : List BaseChunk :=
  if filename.endsWith (".md") then
    ((content.splitOn ("\n## ")).enum).filterMap (fun p =>
      if pyStripS p.2 ≠ "" then
        some { id := filename ++ "::chunk" ++ toString p.1,
               content := pyStripS p.2, source := filename }
      else Option.none)
  else []

def loadAndChunk (files : List (String × String)) : List BaseChunk :=
  (files.map (fun f => chunksOfFile f.1 f.2)).flatten

/-- `DocumentRetriever.__init__`: list the docs directory, chunk the files,
build the index.  Both failure points raise (there is no fallback). -/
def documentRetrieverInit (listing : Option (List (String × String)))
    (scorer : String → Nat → ℚ) : Except String RetrieverCtx :=
  match listing with
  | Option.none => Except.error ("FileNotFoundError: docs directory unavailable")
  | some files =>
    let chunks := loadAndChunk files
    if chunks.isEmpty then Except.error ("ValueError: empty vocabulary")
    else Except.ok { chunks := chunks, scorer := scorer }

/-- Stable ascending insertion of an index by score. -/
def insortIdx (score : Nat → ℚ) (i : Nat) : List Nat → List Nat
  | [] => [i]
  | j :: rest =>
    if score i < score j ∨ (score i = score j ∧ i ≤ j) then i :: j :: rest
    else j :: insortIdx score i rest

def argsortAsc (score : Nat → ℚ) (l : List Nat) : List Nat :=
  l.foldr (insortIdx score) []

/-- `DocumentRetriever.search(query, top_k)`:
`scores.argsort()[-top_k:][::-1]`, then each selected chunk is returned
with its score attached. -/
def retrSearch (ctx : RetrieverCtx) (query : String) (topK : Nat) : List Chunk :=
  let n := ctx.chunks.length
  let sorted := argsortAsc (ctx.scorer query) (List.range n)
  ((sorted.drop (n - topK)).reverse).filterMap (fun i =>
    (ctx.chunks.get? i).map (fun c =>
      { id := c.id, content := c.content, source := c.source, score := ctx.scorer query i }))

/-- The retrieval step of a run: building the retriever (in
`HybridAgent.__init__`) followed by `search(question, top_k=3)`. -/
def retrieveStep (listing : Option (List (String × String)))
    (scorer : String → Nat → ℚ) (question : String) : Except String (List Chunk) :=
  (documentRetrieverInit listing scorer).map (fun ctx => retrSearch ctx question 3)

/-!
Agent state and the nodes of the LangGraph state machine
(src/agent/graph_hybrid.py).
-/

structure AgentState where
  question : String
  format_hint : String
  route : String
  retrieved_chunks : List Chunk
  constraints : Constraints
  sql_query : String
  sql_results : Option ExecResult
  sql_error : Option String
  final_answer : PyValue
  explanation : String
  confidence : ℚ
  citations : Finset String
  repair_count : Nat
  max_repairs : Nat

/-- The initial state literal of `HybridAgent.run`.  (`sql_results` starts
as the empty dict `{}`, modelled `Option.none`; `citations` is a `list` in
the source but only its set of elements is ever observable, since the final
value is `list(set(...))` whose order Python leaves unspecified.) -/
def initialState (question format_hint : String) (max_repairs : Nat) : AgentState :=
  { question := question, format_hint := format_hint, route := "",
    retrieved_chunks := [], constraints := {}, sql_query := "",
    sql_results := Option.none, sql_error := Option.none,
    final_answer := PyValue.none, explanation := "", confidence := 0,
    citations := ∅, repair_count := 0, max_repairs := max_repairs }

/-- Python truthiness of an optional string (`None` and `''` are falsy). -/
def pyTruthyOptStr : Option String → Bool
  | Option.none => false
  | some s => s ≠ ""

def routerNode (model : String → Option String) (s : AgentState) : AgentState :=
  { s with route := (routerForward model s.question).1 }

def retrieverNode (retrieve : String → List Chunk) (s : AgentState) : AgentState :=
  if s.route = "rag" ∨ s.route = "hybrid" then
    { s with retrieved_chunks := retrieve s.question }
  else s

def plannerNode (s : AgentState) : AgentState :=
  if s.route = "sql" ∨ s.route = "hybrid" then
    { s with constraints := extractConstraints s.question s.retrieved_chunks }
  else s

/-- The NL2SQL generator collaborator: question, schema text, constraints,
optional error feedback, and the current repair count (the last argument
lets distinct calls of the stochastic LLM return distinct completions). -/
def GenFn : Type := String → String → Constraints → Option String → Nat → String

def nl2sqlNode (gen : GenFn) (schema : String) (s : AgentState) : AgentState :=
  if s.route = "sql" ∨ s.route = "hybrid" then
    let feedback := if s.repair_count > 0 then s.sql_error else Option.none
    let raw := gen s.question schema s.constraints feedback s.repair_count
    { s with sql_query := stripFences sqlFenceMarkers (pyStripS raw) }
  else s

def executorNode (engine : String → EngineOutcome) (s : AgentState) : AgentState :=
  if s.sql_query ≠ "" then
    let result := executeSql engine (SqlInput.str s.sql_query)
    { s with sql_results := some result, sql_error := result.error }
  else s

/-- `HybridAgent.should_repair` (the conditional edge after EXECUTE):
repair exactly when the stored error is truthy and the counter is strictly
below the bound. -/
def shouldRepair (s : AgentState) : Bool :=
  pyTruthyOptStr s.sql_error && decide (s.repair_count < s.max_repairs)

/-- `HybridAgent.repair_node`. -/
def repairNode (s : AgentState) : AgentState :=
  { s with repair_count := s.repair_count + 1 }

/-- The GENERATE → EXECUTE → (REPAIR → GENERATE | SYNTHESIZE) loop of the
graph, with fuel (the caller passes enough fuel for the bound, see
`sqlLoop_spec`).  Besides the state it returns the number of generator
invocations and the number of executor invocations. -/
def sqlLoop (gen : GenFn) (schema : String) (engine : String → EngineOutcome) :
    Nat → AgentState → AgentState × Nat × Nat
  | 0, s => (s, 0, 0)
  | fuel + 1, s =>
    let s1 := nl2sqlNode gen schema s
    let s2 := executorNode engine s1
    let g : Nat := if s.route = "sql" ∨ s.route = "hybrid" then 1 else 0
    let e : Nat := if s1.sql_query ≠ "" then 1 else 0
    if shouldRepair s2 then
      let r := sqlLoop gen schema engine fuel (repairNode s2)
      (r.1, g + r.2.1, e + r.2.2)
    else (s2, g, e)

/-- `HybridAgent._collect_citations(state)` (as a set: the source returns
`list(set(...))`, whose order Python leaves unspecified).  When
`extract_tables_from_sql` raises `IndexError` (whitespace-only quoted
table name, see `pySplitHead`), `_collect_citations` raises too; otherwise
the result is the deduplicated union of table names and chunk ids. -/
def collectCitations (s : AgentState) : Except String (Finset String) :=
  match (if s.sql_query ≠ "" then extractTables s.sql_query else Except.ok []) with
  | Except.error e => Except.error e
  | Except.ok tabs =>
    Except.ok ((tabs ++
      (if s.retrieved_chunks.isEmpty = false then s.retrieved_chunks.map (fun c => c.id)
       else [])).toFinset)

/-- `HybridAgent._calculate_confidence(state, synth_result)`.  The model's
self-reported confidence string is given already run through `float(...)`:
`Option.none` models an unparseable report (the `except: pass` path). -/
def calcConfidence (sqlRes : Option ExecResult) (chunks : List Chunk) (repairCount : Nat)
    (selfReport : Option ℚ) : ℚ :=
  let c1 : ℚ := 1/2
  let c2 :=
    match sqlRes with
    | some r =>
      if r.success then
        (if r.rows.isEmpty = false then c1 + 2/10 + 1/10 else c1 + 2/10)
      else c1
    | Option.none => c1
  let c3 :=
    if chunks.isEmpty = false then
      c2 + ((chunks.map (fun c => c.score)).sum / (max (1 : ℚ) ((chunks.length : ℚ)))) * (2/10)
    else c2
  let c4 := if repairCount = 0 then c3 + 1/10 else c3 - (5/100) * ((repairCount : ℚ))
  let c5 :=
    match selfReport with
    | some m => (c4 + m) / 2
    | Option.none => c4
  min (max c5 0) 1

/-- The synthesizer collaborator's output (`result.answer`,
`result.explanation`, and `float(result.confidence)` with `Option.none`
for an unparseable confidence string). -/
structure SynthOut where
  answer : String
  explanation : String
  confidence : Option ℚ

/-- `HybridAgent.synthesizer_node`: the answer is parsed first, then
citation collection runs (the only raise point in the node — an uncaught
`IndexError` there aborts the node and hence the run), then the confidence
is computed and the state updated. -/
def synthesizerNode (synth : SynthOut) (s : AgentState) : Except String AgentState :=
  let fa := parseAnswer synth.answer s.format_hint s.sql_results
  match collectCitations s with
  | Except.error e => Except.error e
  | Except.ok cits =>
    Except.ok { s with
      final_answer := fa,
      explanation := synth.explanation,
      confidence := calcConfidence s.sql_results s.retrieved_chunks s.repair_count synth.confidence,
      citations := cits }

/-- `HybridAgent.run(question, format_hint, max_repairs)`.  The graph's
conditional edge router→{retriever|planner} is equivalent to running
`retrieverNode` unconditionally, because the node body carries the same
route guard and is the identity otherwise.  Returns the final state and
the generator/executor invocation counts, or the uncaught exception
propagating out of `graph.invoke` (the synthesizer node's citation
collection is the one internal raise point). -/
def runAgent (model : String → Option String) (retrieve : String → List Chunk) (gen : GenFn)
    (schema : String) (engine : String → EngineOutcome) (synth : SynthOut)
    (question format_hint : String) (max_repairs : Nat) :
    Except String (AgentState × Nat × Nat) :=
  let s1 := routerNode model (initialState question format_hint max_repairs)
  let s2 := retrieverNode retrieve s1
  let s3 := plannerNode s2
  let r := sqlLoop gen schema engine (s3.max_repairs - s3.repair_count + 1) s3
  match synthesizerNode synth r.1 with
  | Except.error e => Except.error e
  | Except.ok fin => Except.ok (fin, r.2)

/-!
Lemmas about the repair loop.
-/

theorem nl2sqlNode_fields (gen : GenFn) (schema : String) (s : AgentState) :
    (nl2sqlNode gen schema s).repair_count = s.repair_count ∧
    (nl2sqlNode gen schema s).max_repairs = s.max_repairs ∧
    (nl2sqlNode gen schema s).route = s.route := by
  unfold nl2sqlNode
  split <;> simp

theorem executorNode_fields (engine : String → EngineOutcome) (s : AgentState) :
    (executorNode engine s).repair_count = s.repair_count ∧
    (executorNode engine s).max_repairs = s.max_repairs ∧
    (executorNode engine s).route = s.route := by
  unfold executorNode
  split <;> simp

theorem shouldRepair_lt {s : AgentState} (h : shouldRepair s = true) :
    s.repair_count < s.max_repairs := by
  unfold shouldRepair at h
  rw [Bool.and_eq_true] at h
  exact of_decide_eq_true h.2

/-- Master invariant of the GENERATE→EXECUTE→REPAIR loop: with enough fuel
the loop terminates into SYNTHESIZE (`shouldRepair` is false on the final
state), the repair counter grows monotonically and never beyond
`max_repairs`, `max_repairs` and `route` are untouched, and on the SQL
routes the number of generator invocations is exactly one more than the
number of repairs taken (on the other routes the generator is never
invoked). -/
theorem sqlLoop_spec (gen : GenFn) (schema : String) (engine : String → EngineOutcome) :
    ∀ (fuel : Nat) (s : AgentState), s.max_repairs - s.repair_count < fuel →
      shouldRepair (sqlLoop gen schema engine fuel s).1 = false ∧
      s.repair_count ≤ (sqlLoop gen schema engine fuel s).1.repair_count ∧
      (sqlLoop gen schema engine fuel s).1.repair_count ≤ max s.repair_count s.max_repairs ∧
      (sqlLoop gen schema engine fuel s).1.max_repairs = s.max_repairs ∧
      (sqlLoop gen schema engine fuel s).1.route = s.route ∧
      ((s.route = "sql" ∨ s.route = "hybrid") →
        (sqlLoop gen schema engine fuel s).2.1 =
          (sqlLoop gen schema engine fuel s).1.repair_count - s.repair_count + 1) ∧
      (¬(s.route = "sql" ∨ s.route = "hybrid") →
        (sqlLoop gen schema engine fuel s).2.1 = 0) := by
  intro fuel
  induction fuel with
  | zero => intro s h; exact absurd h (Nat.not_lt_zero _)
  | succ n ih =>
    intro s h
    have hpres1 := nl2sqlNode_fields gen schema s
    have hpres2 := executorNode_fields engine (nl2sqlNode gen schema s)
    rw [sqlLoop]
    dsimp only
    by_cases hrep : shouldRepair (executorNode engine (nl2sqlNode gen schema s)) = true
    · rw [if_pos hrep]
      dsimp only
      have hlt : s.repair_count < s.max_repairs := by
        have := shouldRepair_lt hrep
        rw [hpres2.1, hpres1.1, hpres2.2.1, hpres1.2.1] at this
        exact this
      have hrc : (repairNode (executorNode engine (nl2sqlNode gen schema s))).repair_count =
          s.repair_count + 1 := by
        unfold repairNode; dsimp; rw [hpres2.1, hpres1.1]
      have hmr : (repairNode (executorNode engine (nl2sqlNode gen schema s))).max_repairs =
          s.max_repairs := by
        unfold repairNode; dsimp; rw [hpres2.2.1, hpres1.2.1]
      have hrt : (repairNode (executorNode engine (nl2sqlNode gen schema s))).route = s.route := by
        unfold repairNode; dsimp; rw [hpres2.2.2, hpres1.2.2]
      have hfuel : (repairNode (executorNode engine (nl2sqlNode gen schema s))).max_repairs -
          (repairNode (executorNode engine (nl2sqlNode gen schema s))).repair_count < n := by
        rw [hmr, hrc]; omega
      obtain ⟨h1, h2, h3, h4, h5, h6, h7⟩ := ih (repairNode (executorNode engine (nl2sqlNode gen schema s))) hfuel
      rw [hrc] at h2 h3 h6
      rw [hmr] at h3 h4
      rw [hrt] at h5 h6 h7
      refine ⟨h1, by omega, by omega, h4, h5, ?_, ?_⟩
      · intro hroute
        have h6' := h6 hroute
        rw [if_pos hroute]
        omega
      · intro hroute
        have h7' := h7 hroute
        rw [if_neg hroute]
        omega
    · rw [if_neg hrep]
      dsimp only
      rw [Bool.not_eq_true] at hrep
      refine ⟨hrep, ?_, ?_, ?_, ?_, ?_, ?_⟩
      · rw [hpres2.1, hpres1.1]
      · rw [hpres2.1, hpres1.1]; exact Nat.le_max_left _ _
      · rw [hpres2.2.1, hpres1.2.1]
      · rw [hpres2.2.2, hpres1.2.2]
      · intro hroute
        rw [if_pos hroute, hpres2.1, hpres1.1]
        omega
      · intro hroute
        rw [if_neg hroute]

/-!
Claim theorems.
-/

theorem synthesizerNode_repair_count (synth : SynthOut) (s fin : AgentState)
    (h : synthesizerNode synth s = Except.ok fin) :
    fin.repair_count = s.repair_count := by
  unfold synthesizerNode at h
  cases hc : collectCitations s with
  | error e => rw [hc] at h; exact absurd h (by simp)
  | ok cits =>
    rw [hc] at h
    simp only [Except.ok.injEq] at h
    rw [← h]

theorem plannerNode_fields (s : AgentState) :
    (plannerNode s).repair_count = s.repair_count ∧
    (plannerNode s).max_repairs = s.max_repairs := by
  unfold plannerNode
  split <;> exact ⟨rfl, rfl⟩

theorem retrieverNode_fields (retrieve : String → List Chunk) (s : AgentState) :
    (retrieverNode retrieve s).repair_count = s.repair_count ∧
    (retrieverNode retrieve s).max_repairs = s.max_repairs := by
  unfold retrieverNode
  split <;> exact ⟨rfl, rfl⟩

/-- Claim C1: for every run the repair counter starts at 0 (see the
`initialState` conjunct), is incremented by exactly 1 only by the
EXECUTE→REPAIR transition (`repairNode`, taken exactly when the stored
execution error is truthy and the counter is strictly below `maxRepairs` —
the `shouldRepair` conjunct), never exceeds `maxRepairs` — also through the
whole `runAgent` pipeline (last conjunct) — the loop always exits into
SYNTHESIZE (`shouldRepair` of the final state is false), and at most
`maxRepairs + 1` query-generation attempts occur — hence at most 3 for
`maxRepairs = 2`. -/
theorem repair_loop_bounded (gen : GenFn) (schema : String) (engine : String → EngineOutcome)
    (s : AgentState) (h0 : s.repair_count = 0) :
    (sqlLoop gen schema engine (s.max_repairs - s.repair_count + 1) s).1.repair_count ≤ s.max_repairs ∧
    shouldRepair (sqlLoop gen schema engine (s.max_repairs - s.repair_count + 1) s).1 = false ∧
    (sqlLoop gen schema engine (s.max_repairs - s.repair_count + 1) s).2.1 ≤ s.max_repairs + 1 ∧
    (s.max_repairs = 2 → (sqlLoop gen schema engine (s.max_repairs - s.repair_count + 1) s).2.1 ≤ 3) ∧
    (∀ t : AgentState, (repairNode t).repair_count = t.repair_count + 1) ∧
    (∀ t : AgentState, shouldRepair t =
      (pyTruthyOptStr t.sql_error && decide (t.repair_count < t.max_repairs))) ∧
    (initialState s.question s.format_hint s.max_repairs).repair_count = 0 ∧
    (∀ (model : String → Option String) (retrieve : String → List Chunk) (synth : SynthOut)
       (question2 fh2 : String) (mr2 : Nat) (fin : AgentState × Nat × Nat),
      runAgent model retrieve gen schema engine synth question2 fh2 mr2 = Except.ok fin →
      fin.1.repair_count ≤ mr2) := by
  obtain ⟨h1, h2, h3, h4, h5, h6, h7⟩ :=
    sqlLoop_spec gen schema engine (s.max_repairs - s.repair_count + 1) s (Nat.lt_succ_self _)
  have hmax : max s.repair_count s.max_repairs = s.max_repairs := by
    rw [h0]; exact Nat.max_eq_right (Nat.zero_le _)
  have hrc : (sqlLoop gen schema engine (s.max_repairs - s.repair_count + 1) s).1.repair_count ≤
      s.max_repairs := by
    rw [hmax] at h3; exact h3
  have hg : (sqlLoop gen schema engine (s.max_repairs - s.repair_count + 1) s).2.1 ≤
      s.max_repairs + 1 := by
    by_cases hroute : (s.route = "sql" ∨ s.route = "hybrid")
    · have h6' := h6 hroute; omega
    · have h7' := h7 hroute; omega
  refine ⟨hrc, h1, hg, fun hm => by omega, fun t => rfl, fun t => rfl, rfl, ?_⟩
  intro model retrieve synth question2 fh2 mr2 fin hfin
  unfold runAgent at hfin
  dsimp only at hfin
  set s3 := plannerNode (retrieverNode retrieve (routerNode model (initialState question2 fh2 mr2)))
    with hs3
  have hf1 : s3.repair_count = 0 := by
    rw [hs3, (plannerNode_fields _).1, (retrieverNode_fields _ _).1]; rfl
  have hf2 : s3.max_repairs = mr2 := by
    rw [hs3, (plannerNode_fields _).2, (retrieverNode_fields _ _).2]; rfl
  obtain ⟨_, _, h3b, _, _, _, _⟩ :=
    sqlLoop_spec gen schema engine (s3.max_repairs - s3.repair_count + 1) s3 (Nat.lt_succ_self _)
  have hmx : max s3.repair_count s3.max_repairs = mr2 := by
    rw [hf1, hf2]; exact Nat.max_eq_right (Nat.zero_le _)
  rw [hmx] at h3b
  cases hsy : synthesizerNode synth
      (sqlLoop gen schema engine (s3.max_repairs - s3.repair_count + 1) s3).1 with
  | error e => rw [hsy] at hfin; exact absurd hfin (by simp)
  | ok fin1 =>
    rw [hsy] at hfin
    simp only [Except.ok.injEq] at hfin
    have hrc1 : fin1.repair_count =
        (sqlLoop gen schema engine (s3.max_repairs - s3.repair_count + 1) s3).1.repair_count :=
      synthesizerNode_repair_count synth _ fin1 hsy
    rw [← hfin]
    rw [show ((fin1, (sqlLoop gen schema engine (s3.max_repairs - s3.repair_count + 1) s3).2) :
        AgentState × Nat × Nat).1 = fin1 from rfl]
    rw [hrc1]
    exact h3b

/-- Witness for C1: a concrete SQL-routed run with `maxRepairs = 2` and a
persistently failing engine. -/
theorem repair_loop_bounded_witness :
    (sqlLoop (fun _ _ _ _ _ => "SELECT 1 FROM Missing") ""
      (fun _ => EngineOutcome.sqliteError ("no such table: Missing"))
      (({ initialState ("how many orders") ("int") 2 with route := "sql" } : AgentState).max_repairs -
        ({ initialState ("how many orders") ("int") 2 with route := "sql" } : AgentState).repair_count + 1)
      { initialState ("how many orders") ("int") 2 with route := "sql" }).1.repair_count ≤
      ({ initialState ("how many orders") ("int") 2 with route := "sql" } : AgentState).max_repairs :=
  (repair_loop_bounded (fun _ _ _ _ _ => "SELECT 1 FROM Missing") ""
    (fun _ => EngineOutcome.sqliteError ("no such table: Missing"))
    { initialState ("how many orders") ("int") 2 with route := "sql" } rfl).1

/-!
C2 — the confidence formula.

The following three definitions transcribe the *claim's* wording of the
formula (to be compared with `calcConfidence`, which transcribes the
source): h = 0.5, +0.2 on success, a further +0.1 on at least one row,
+ average relevance × 0.2 (0 if none retrieved), +0.1 for zero repairs and
−0.05·count otherwise; final value clamp(0,1,(h+m)/2) with m = h when the
self-report is unparseable.
-/

def specSuccess : Option ExecResult → Bool
  | some r => r.success
  | Option.none => false

def specHasRows : Option ExecResult → Bool
  | some r => !r.rows.isEmpty
  | Option.none => false

def specAvgScore (chunks : List Chunk) : ℚ :=
  if chunks.isEmpty then 0 else (chunks.map (fun c => c.score)).sum / ((chunks.length : ℚ))

def specHeuristicSum (sqlRes : Option ExecResult) (chunks : List Chunk) (rc : Nat) : ℚ :=
  1/2 + (if specSuccess sqlRes then 2/10 else 0)
      + (if specSuccess sqlRes && specHasRows sqlRes then 1/10 else 0)
      + specAvgScore chunks * (2/10)
      + (if rc = 0 then 1/10 else -(5/100) * ((rc : ℚ)))

def specConfidence (sqlRes : Option ExecResult) (chunks : List Chunk) (rc : Nat)
    (selfReport : Option ℚ) : ℚ :=
  let h := specHeuristicSum sqlRes chunks rc
  let m := selfReport.getD h
  min (max ((h + m) / 2) 0) 1

theorem max_one_len_eq (chunks : List Chunk) (hc : chunks.isEmpty = false) :
    max (1 : ℚ) ((chunks.length : ℚ)) = ((chunks.length : ℚ)) := by
  apply max_eq_right
  have h1 : 1 ≤ chunks.length := by
    cases chunks with
    | nil => simp at hc
    | cons a t => simp
  exact_mod_cast h1

/-- Claim C2: for every final state the confidence computed by the code
equals the claim's formula `clamp(0, 1, (h + m)/2)` (with `m` defaulting to
`h` itself when the self-report is unparseable, so that the average is a
no-op), and the result always lies in `[0.0, 1.0]` inclusive.  The last
conjunct ties the formula to the run: whenever the synthesizer node
returns a final state, its stored confidence is exactly `calcConfidence`
of the state's signals. -/
theorem confidence_matches_formula (sqlRes : Option ExecResult) (chunks : List Chunk)
    (rc : Nat) (m : Option ℚ) :
    calcConfidence sqlRes chunks rc m = specConfidence sqlRes chunks rc m ∧
    0 ≤ calcConfidence sqlRes chunks rc m ∧ calcConfidence sqlRes chunks rc m ≤ 1 ∧
    (∀ (synth : SynthOut) (s : AgentState) (fin : AgentState),
      synthesizerNode synth s = Except.ok fin →
      fin.confidence =
        calcConfidence s.sql_results s.retrieved_chunks s.repair_count synth.confidence) := by
  refine ⟨?_, ?_, ?_, ?_⟩
  case refine_4 =>
    intro synth s fin hfin
    unfold synthesizerNode at hfin
    cases hc : collectCitations s with
    | error e => rw [hc] at hfin; exact absurd hfin (by simp)
    | ok cits =>
      rw [hc] at hfin
      simp only [Except.ok.injEq] at hfin
      rw [← hfin]
  · unfold calcConfidence specConfidence specHeuristicSum specSuccess specHasRows specAvgScore
    cases sqlRes with
    | none =>
      cases hc : chunks.isEmpty <;> by_cases hrc : rc = 0 <;> cases m <;>
        simp only [hc, hrc, Option.getD, Bool.false_eq_true, Bool.true_eq_false,
          Bool.false_and, Bool.true_and, Bool.not_true, Bool.not_false,
          if_false, if_true, ite_false, ite_true] <;>
        first
          | (ring_nf; done)
          | (rw [max_one_len_eq chunks hc]; try ring_nf)
    | some r =>
      cases hs : r.success <;> cases hr : r.rows.isEmpty <;>
        cases hc : chunks.isEmpty <;> by_cases hrc : rc = 0 <;> cases m <;>
        simp only [hc, hrc, hs, hr, Option.getD, Bool.false_eq_true, Bool.true_eq_false,
          Bool.false_and, Bool.true_and, Bool.not_true, Bool.not_false,
          if_false, if_true, ite_false, ite_true] <;>
        first
          | (ring_nf; done)
          | (rw [max_one_len_eq chunks hc]; try ring_nf)
  · unfold calcConfidence
    exact le_min (le_max_right _ _) zero_le_one
  · unfold calcConfidence
    exact min_le_right _ _

/-!
C3 — answer shape vs. format hint.
-/

def isDictVal : PyValue → Bool
  | .dict _ => true
  | _ => false

theorem firstRunBy_eq_none {p : Char → Bool} :
    ∀ cs : List Char, (∀ c ∈ cs, p c = false) → firstRunBy p cs = Option.none := by
  intro cs h
  induction cs with
  | nil => rfl
  | cons c t ih =>
    unfold firstRunBy
    rw [h c (List.mem_cons_self c t)]
    simp only [Bool.false_eq_true, if_false]
    exact ih (fun d hd => h d (List.mem_cons_of_mem c hd))

theorem parseAnswer_chars_sub (a : String) :
    ∀ c ∈ (stripFences answerFenceMarkers (pyStripS a)).data, c ∈ a.data := by
  intro c hc
  have h1 : c ∈ pyStrip a.data := by
    have hs := fenceAux_sublist (answerFenceMarkers.map String.data)
      (pyStripS a).data.length true (pyStripS a).data
    exact hs.subset hc
  exact pyStrip_subset a.data c h1

/-- Counterexample to claim C3: with the object-shape hint
`'{"category": str}'` and the raw synthesized answer `"5"`,
`_parse_answer` returns the integer `5` — `json.loads` succeeds on any JSON
value and its result is returned unchecked, so the FinalAnswer is not an
object even though the hint declares the object family. -/
theorem parse_answer_shape_counterexample :
    parseAnswer ("5")
      (String.mk ([lbraceChar] ++ ("\"category\": str").data ++ [rbraceChar])) Option.none =
      PyValue.int 5 ∧
    isDictVal (parseAnswer ("5")
      (String.mk ([lbraceChar] ++ ("\"category\": str").data ++ [rbraceChar])) Option.none) = false :=
  ⟨rfl, rfl⟩

/-- Claim C3 (amended): only the `int` family of the claim holds
unconditionally: for `formatHint = "int"` the parsed FinalAnswer is always
an integer, and it is `0` whenever the raw synthesized text contains no
digit.  (For the float/object/list hints the shape can differ from the
hint's family, see the counterexample.) -/
theorem parse_answer_int_hint (a : String) (r : Option ExecResult) :
    (∃ n : ℤ, parseAnswer a ("int") r = PyValue.int n) ∧
    ((∀ c ∈ a.data, c.isDigit = false) → parseAnswer a ("int") r = PyValue.int 0) := by
  constructor
  · unfold parseAnswer
    rw [if_pos rfl]
    cases hfr : firstRunBy Char.isDigit (stripFences answerFenceMarkers (pyStripS a)).data with
    | some ds => exact ⟨(digitsToNat ds : ℤ), by simp only [hfr]⟩
    | none => exact ⟨0, by simp only [hfr]⟩
  · intro hnod
    unfold parseAnswer
    rw [if_pos rfl]
    have hnone : firstRunBy Char.isDigit (stripFences answerFenceMarkers (pyStripS a)).data =
        Option.none :=
      firstRunBy_eq_none _ (fun c hc => hnod c (parseAnswer_chars_sub a c hc))
    simp only [hnone]

/-- Witness for the amended C3 at a digitless concrete answer. -/
theorem parse_answer_int_hint_witness :
    parseAnswer ("no digits here!") ("int") Option.none = PyValue.int 0 :=
  (parse_answer_int_hint ("no digits here!") Option.none).2 (by decide)

/-!
C4 / C5 — constraint extraction.
-/

theorem constraintStep_category_asking (question : String) (cs : Constraints) (content : String) :
    (constraintStep question true cs content).category = cs.category := by
  unfold constraintStep
  simp only [Bool.true_eq_false, if_false, ite_false]
  cases hfd : findDateRange content.data <;> simp only [hfd] <;> split_ifs <;> rfl

theorem foldl_category_asking (question : String) :
    ∀ (chunks : List Chunk) (cs : Constraints),
      (chunks.foldl (fun acc chunk => constraintStep question true acc chunk.content) cs).category =
        cs.category := by
  intro chunks
  induction chunks with
  | nil => intro cs; rfl
  | cons c t ih =>
    intro cs
    rw [List.foldl_cons, ih, constraintStep_category_asking]

/-- Claim C4: whenever the lowercased question contains one of the disjoint
"which/what/top/highest/best category" phrases, `_extract_constraints`
never records a `category` constraint — for any chunk contents, including
contents mentioning an enumerated category name. -/
theorem no_category_when_asking (question : String) (chunks : List Chunk)
    (h : ∃ p ∈ categoryPhrases, strHasSubstr (toLowerS question) p = true) :
    (extractConstraints question chunks).category = Option.none := by
  unfold extractConstraints
  have hask : categoryPhrases.any (fun p => strHasSubstr (toLowerS question) p) = true := by
    rw [List.any_eq_true]
    obtain ⟨p, hp, hs⟩ := h
    exact ⟨p, hp, hs⟩
  simp only [hask]
  exact foldl_category_asking question chunks {}

/-- Witness for C4: a "which category" question with a chunk that mentions
the category name `Beverages`. -/
theorem no_category_when_asking_witness :
    (extractConstraints ("Which category had the highest revenue?")
      [⟨"docs.md::chunk1", "Beverages did best this quarter", "docs.md", 0⟩]).category =
      Option.none :=
  no_category_when_asking ("Which category had the highest revenue?")
    [⟨"docs.md::chunk1", "Beverages did best this quarter", "docs.md", 0⟩]
    ⟨"which category", by decide, by decide⟩

theorem constraintStep_date (question : String) (asking : Bool) (cs : Constraints)
    (content : String) :
    (constraintStep question asking cs content).date_range =
      match findDateRange content.data with
      | some dr => some dr
      | Option.none => cs.date_range := by
  unfold constraintStep
  cases hfd : findDateRange content.data <;>
    cases hcat : categoriesList.find? (fun cat => strHasSubstr content cat) <;>
      simp only [hfd, hcat] <;> split_ifs <;> rfl

theorem foldl_date (question : String) (asking : Bool) :
    ∀ (chunks : List Chunk) (cs : Constraints),
      (chunks.foldl (fun acc chunk => constraintStep question asking acc chunk.content) cs).date_range =
        match (chunks.filterMap (fun c => findDateRange c.content.data)).getLast? with
        | some dr => some dr
        | Option.none => cs.date_range := by
  intro chunks
  induction chunks with
  | nil => intro cs; rfl
  | cons c t ih =>
    intro cs
    rw [List.foldl_cons, ih, List.filterMap_cons]
    cases hfd : findDateRange c.content.data with
    | none =>
      simp only [hfd]
      rw [constraintStep_date, hfd]
    | some dr =>
      simp only [hfd]
      cases hft : t.filterMap (fun c => findDateRange c.content.data) with
      | nil =>
        simp only [List.getLast?_nil, List.getLast?_singleton]
        rw [constraintStep_date, hfd]
      | cons x xs =>
        simp only [List.getLast?_cons_cons]
        cases hl : (x :: xs).getLast? with
        | none => simp at hl
        | some y => simp only [hl]

/-- Counterexample to claim C5: with two chunks in retrieval order each
containing a date range, the recorded `date_range` is the match from the
*last* such chunk, not the first — each iteration of the chunk loop
overwrites the key. -/
theorem date_range_first_counterexample :
    (extractConstraints ("total sales")
      [⟨"a.md::chunk0", "window 2024-01-01 to 2024-02-02", "a.md", 0⟩,
       ⟨"b.md::chunk0", "window 2023-03-03 to 2023-04-04", "b.md", 0⟩]).date_range =
      some ("2023-03-03", "2023-04-04") ∧
    findDateRange (("window 2024-01-01 to 2024-02-02").data) =
      some ("2024-01-01", "2024-02-02") ∧
    (extractConstraints ("total sales")
      [⟨"a.md::chunk0", "window 2024-01-01 to 2024-02-02", "a.md", 0⟩,
       ⟨"b.md::chunk0", "window 2023-03-03 to 2023-04-04", "b.md", 0⟩]).date_range ≠
      some ("2024-01-01", "2024-02-02") :=
  ⟨rfl, rfl, by decide⟩

/-- Claim C5 (amended): the recorded `date_range` is the first regex match
of the *last* chunk (in retrieval order) that contains a match — the loop
overwrites the key on every matching chunk.  (`findDateRange` returns the
leftmost match within one chunk, i.e. `re.findall(...)[0]`.) -/
theorem date_range_records_last (question : String) (chunks : List Chunk) :
    (extractConstraints question chunks).date_range =
      (chunks.filterMap (fun c => findDateRange c.content.data)).getLast? := by
  unfold extractConstraints
  rw [foldl_date]
  cases hl : (chunks.filterMap (fun c => findDateRange c.content.data)).getLast? <;>
    simp only [hl]

/-!
C6 — router lexical rules.
-/

/-- Claim C6: for every question whose lowercased text contains one of the
policy/definition keywords, the router returns `rag` without invoking the
text-generation collaborator (invocation flag `false`), and the result is
independent of the collaborator — the lexical rules run first and take
priority over model classification. -/
theorem router_policy_rag (model : String → Option String) (question : String)
    (h : ∃ w ∈ ragKeywords, strHasSubstr (toLowerS question) w = true) :
    routerForward model question = ("rag", false) ∧
    (∀ model2 : String → Option String, routerForward model2 question = routerForward model question) := by
  have hany : ragKeywords.any (fun w => strHasSubstr (toLowerS question) w) = true := by
    rw [List.any_eq_true]
    exact h
  constructor
  · unfold routerForward
    simp only [hany, if_true]
  · intro model2
    unfold routerForward
    simp only [hany, if_true]

/-- Witness for C6: a policy question and a collaborator that would answer
`sql` — the router still returns `rag` without consulting it. -/
theorem router_policy_rag_witness :
    routerForward (fun _ => some ("sql")) ("What is the refund policy?") = ("rag", false) :=
  (router_policy_rag (fun _ => some ("sql")) ("What is the refund policy?")
    ⟨"policy", by decide, by decide⟩).1

/-!
C7 — retrieval unavailability.
-/

/-- Counterexample to claim C7: when the docs directory is unavailable,
the retrieval step is an error (`os.listdir` raises in
`DocumentRetriever.__init__` and nothing catches it), not an empty chunk
sequence — there is no recovery path in the source. -/
theorem retrieval_unavailable_counterexample :
    retrieveStep Option.none (fun _ _ => 0) ("any question") =
      Except.error ("FileNotFoundError: docs directory unavailable") ∧
    ∀ cs : List Chunk,
      retrieveStep Option.none (fun _ _ => 0) ("any question") ≠ Except.ok cs := by
  refine ⟨rfl, ?_⟩
  intro cs h
  exact Except.noConfusion h

/-- Claim C7 (amended): if the document index is unavailable, the retrieval
step raises (initialization fails and the run does not continue) rather
than returning an empty chunk sequence. -/
theorem retrieval_unavailable_raises (scorer : String → Nat → ℚ) (question : String) :
    retrieveStep Option.none scorer question =
      Except.error ("FileNotFoundError: docs directory unavailable") ∧
    ∀ cs : List Chunk, retrieveStep Option.none scorer question ≠ Except.ok cs := by
  refine ⟨rfl, ?_⟩
  intro cs h
  exact Except.noConfusion h

/-!
C8 — citation collection.
-/

theorem collectCitations_eq (s : AgentState) :
    collectCitations s =
      (extractTables s.sql_query).map (fun tabs =>
        tabs.toFinset ∪ (s.retrieved_chunks.map (fun c => c.id)).toFinset) := by
  unfold collectCitations
  by_cases hq : s.sql_query = ""
  · rw [hq]
    rw [show extractTables ("") = Except.ok [] from rfl]
    rcases hcs : s.retrieved_chunks with _ | ⟨c, t⟩ <;>
      simp [Except.map, List.toFinset_append]
  · rw [if_pos hq]
    cases hx : extractTables s.sql_query with
    | error e => simp [Except.map]
    | ok tabs =>
      rcases hcs : s.retrieved_chunks with _ | ⟨c, t⟩ <;>
        simp [Except.map, List.toFinset_append]

/-- Claim C8: citation collection is idempotent (it reads only the query
and the retrieved chunks, so re-collecting — in particular after storing
the collected citations in the state — yields the same result, including
the raising states), permuting the retrieved-chunk list does not change
the outcome (same `IndexError` when extraction raises, same set when it
returns), and the outcome depends only on the outcome-up-to-set of table
extraction — in particular duplicating a table reference
(`FROM Orders JOIN Orders o2` versus `FROM Orders`) leaves the citation
set unchanged. -/
theorem citations_set_properties :
    (∀ (s : AgentState) (c : Finset String),
      collectCitations { s with citations := c } = collectCitations s) ∧
    (∀ (s : AgentState) (chunks2 : List Chunk), s.retrieved_chunks.Perm chunks2 →
      collectCitations { s with retrieved_chunks := chunks2 } = collectCitations s) ∧
    (∀ (s : AgentState) (q2 : String),
      (extractTables q2).map List.toFinset = (extractTables s.sql_query).map List.toFinset →
      collectCitations { s with sql_query := q2 } = collectCitations s) ∧
    (∀ s : AgentState,
      collectCitations { s with sql_query := "SELECT * FROM Orders JOIN Orders o2" } =
        collectCitations { s with sql_query := "SELECT * FROM Orders" }) := by
  refine ⟨?_, ?_, ?_, ?_⟩
  · intro s c
    rfl
  · intro s chunks2 hperm
    rw [collectCitations_eq, collectCitations_eq]
    have hids : (chunks2.map (fun c => c.id)).toFinset =
        (s.retrieved_chunks.map (fun c => c.id)).toFinset := by
      ext x
      simp only [List.mem_toFinset]
      exact (hperm.map (fun c => c.id)).mem_iff.symm
    rw [show ({ s with retrieved_chunks := chunks2 } : AgentState).sql_query = s.sql_query from rfl]
    rw [show ({ s with retrieved_chunks := chunks2 } : AgentState).retrieved_chunks = chunks2 from rfl]
    simp only [hids]
  · intro s q2 htab
    rw [collectCitations_eq, collectCitations_eq]
    rw [show ({ s with sql_query := q2 } : AgentState).sql_query = q2 from rfl]
    rw [show ({ s with sql_query := q2 } : AgentState).retrieved_chunks = s.retrieved_chunks from rfl]
    cases hx : extractTables q2 with
    | error e =>
      rw [hx] at htab
      cases hy : extractTables s.sql_query with
      | error e2 =>
        rw [hy] at htab
        simp only [Except.map] at htab
        injection htab with he2
        rw [he2]
      | ok b =>
        rw [hy] at htab
        simp [Except.map] at htab
    | ok a =>
      rw [hx] at htab
      cases hy : extractTables s.sql_query with
      | error e2 =>
        rw [hy] at htab
        simp [Except.map] at htab
      | ok b =>
        rw [hy] at htab
        simp only [Except.map, Except.ok.injEq] at htab
        simp only [Except.map, Except.ok.injEq]
        rw [htab]
  · intro s
    rw [collectCitations_eq, collectCitations_eq]
    rfl

/-- Witness for C8: permuting two concrete retrieved chunks leaves the
citation set unchanged. -/
theorem citations_set_properties_witness :
    collectCitations { (initialState ("q") ("int") 2) with
      retrieved_chunks := [⟨"a.md::chunk0", "xx", "a.md", 2⟩, ⟨"b.md::chunk1", "yy", "b.md", 1⟩] } =
    collectCitations { (initialState ("q") ("int") 2) with
      retrieved_chunks := [⟨"b.md::chunk1", "yy", "b.md", 1⟩, ⟨"a.md::chunk0", "xx", "a.md", 2⟩] } :=
  citations_set_properties.2.1
    { (initialState ("q") ("int") 2) with
      retrieved_chunks := [⟨"b.md::chunk1", "yy", "b.md", 1⟩, ⟨"a.md::chunk0", "xx", "a.md", 2⟩] }
    [⟨"a.md::chunk0", "xx", "a.md", 2⟩, ⟨"b.md::chunk1", "yy", "b.md", 1⟩]
    (by decide)

/-!
C9 — the `execute_sql` result contract.
-/

/-- Claim C9: `execute_sql` always returns a result record (it never
raises: the function is total), with: on failure — empty rows, empty
columns, zero row count and a non-`None` error string (this covers empty
and non-string inputs and every engine error); on success — a `None` error
and a row count equal to the number of rows. -/
theorem executeSql_contract (engine : String → EngineOutcome) (input : SqlInput) :
    ((executeSql engine input).success = false →
      (executeSql engine input).rows = [] ∧ (executeSql engine input).columns = [] ∧
      (executeSql engine input).row_count = 0 ∧
      (executeSql engine input).error.isSome = true) ∧
    ((executeSql engine input).success = true →
      (executeSql engine input).error = Option.none ∧
      (executeSql engine input).row_count = (executeSql engine input).rows.length) ∧
    ((input = SqlInput.notAString ∨ input = SqlInput.str ("")) →
      (executeSql engine input).success = false) := by
  unfold executeSql
  cases input with
  | notAString => simp [invalidResult]
  | str s =>
    by_cases hs : s = ""
    · simp [hs, invalidResult]
    · by_cases hq : pyStripS s = ""
      · simp [hs, hq, invalidResult]
      · cases he : engine (pyStripS s) with
        | ok rows => simp [hs, hq, he]
        | sqliteError msg => simp [hs, hq, he]
        | otherError msg => simp [hs, hq, he]

/-- Witness for C9: the empty-string input fails with the documented shape. -/
theorem executeSql_contract_witness :
    (executeSql (fun _ => EngineOutcome.ok []) (SqlInput.str (""))).rows = [] ∧
    (executeSql (fun _ => EngineOutcome.ok []) (SqlInput.str (""))).columns = [] ∧
    (executeSql (fun _ => EngineOutcome.ok []) (SqlInput.str (""))).row_count = 0 ∧
    (executeSql (fun _ => EngineOutcome.ok []) (SqlInput.str (""))).error.isSome = true :=
  (executeSql_contract (fun _ => EngineOutcome.ok []) (SqlInput.str (""))).1 rfl

/-!
C10 — frame conditions of the `rag` route.
-/

theorem citations_ids_only (s : AgentState) (hq : s.sql_query = "") :
    collectCitations s =
      Except.ok ((s.retrieved_chunks.map (fun c => c.id)).toFinset) := by
  rw [collectCitations_eq, hq]
  rw [show extractTables ("") = Except.ok [] from rfl]
  simp [Except.map]

/-- Claim C10: when the router assigns route `rag`, the run succeeds (the
citation-collection raise point is unreachable: `sql_query` stays empty)
and the SQL-related state keeps its initial values through the whole run
(`sql_query` empty, `sql_results` the empty mapping, `sql_error` `None`,
`repair_count` 0), the generator and the executor are never invoked
(invocation counts 0, and the run result is independent of both
collaborators), and the citations are exactly the retrieved-chunk ids
with no table names. -/
theorem rag_route_frame (model : String → Option String) (retrieve : String → List Chunk)
    (gen : GenFn) (schema : String) (engine : String → EngineOutcome) (synth : SynthOut)
    (question fh : String) (mr : Nat)
    (h : (routerForward model question).1 = "rag") :
    ∃ fin : AgentState × Nat × Nat,
      runAgent model retrieve gen schema engine synth question fh mr = Except.ok fin ∧
      fin.1.sql_query = "" ∧ fin.1.sql_results = Option.none ∧
      fin.1.sql_error = Option.none ∧ fin.1.repair_count = 0 ∧
      fin.2.1 = 0 ∧ fin.2.2 = 0 ∧
      fin.1.citations = (fin.1.retrieved_chunks.map (fun c => c.id)).toFinset ∧
      (∀ (gen2 : GenFn) (engine2 : String → EngineOutcome),
        runAgent model retrieve gen2 schema engine2 synth question fh mr =
          runAgent model retrieve gen schema engine synth question fh mr) := by
  have e1 : routerNode model (initialState question fh mr) =
      { initialState question fh mr with route := "rag" } := by
    unfold routerNode
    rw [show (routerForward model (initialState question fh mr).question).1 = "rag" from h]
  have hcc := citations_ids_only
    ({ initialState question fh mr with
        route := "rag", retrieved_chunks := retrieve question }) rfl
  have hsyn : synthesizerNode synth
      ({ initialState question fh mr with
          route := "rag", retrieved_chunks := retrieve question }) =
      Except.ok
        ({ initialState question fh mr with
            route := "rag",
            retrieved_chunks := retrieve question,
            final_answer := parseAnswer synth.answer fh Option.none,
            explanation := synth.explanation,
            confidence := calcConfidence Option.none (retrieve question) 0 synth.confidence,
            citations := ((retrieve question).map (fun c => c.id)).toFinset }) := by
    unfold synthesizerNode
    rw [hcc]
    rfl
  have hrun : ∀ (gen2 : GenFn) (engine2 : String → EngineOutcome),
      runAgent model retrieve gen2 schema engine2 synth question fh mr =
        Except.ok
          ({ initialState question fh mr with
              route := "rag",
              retrieved_chunks := retrieve question,
              final_answer := parseAnswer synth.answer fh Option.none,
              explanation := synth.explanation,
              confidence := calcConfidence Option.none (retrieve question) 0 synth.confidence,
              citations := ((retrieve question).map (fun c => c.id)).toFinset }, 0, 0) := by
    intro gen2 engine2
    have h1 : runAgent model retrieve gen2 schema engine2 synth question fh mr =
        (match synthesizerNode synth
            ({ initialState question fh mr with
                route := "rag", retrieved_chunks := retrieve question }) with
         | Except.error e => Except.error e
         | Except.ok fin => Except.ok (fin, ((0 : Nat), (0 : Nat)))) := by
      unfold runAgent
      rw [e1]
      rfl
    rw [h1, hsyn]
  exact ⟨_, hrun gen engine, rfl, rfl, rfl, rfl, rfl, rfl, rfl,
    fun gen2 engine2 => (hrun gen2 engine2).trans (hrun gen engine).symm⟩

/-- Witness for C10: a concrete policy question (lexically routed to
`rag`) with concrete collaborators — the run succeeds and the final
state's `sql_query` is empty. -/
theorem rag_route_frame_witness :
    ∃ fin : AgentState × Nat × Nat,
      runAgent (fun _ => Option.none) (fun _ => []) (fun _ _ _ _ _ => (""))
        ("") (fun _ => EngineOutcome.ok []) ⟨"0", "", Option.none⟩
        ("What is the return policy?") ("str") 2 = Except.ok fin ∧
      fin.1.sql_query = "" := by
  obtain ⟨fin, h1, h2, _⟩ := rag_route_frame (fun _ => Option.none) (fun _ => [])
    (fun _ _ _ _ _ => ("")) ("") (fun _ => EngineOutcome.ok [])
    ⟨"0", "", Option.none⟩ ("What is the return policy?") ("str") 2 (by decide)
  exact ⟨fin, h1, h2⟩
